import Mathlib

/-!
A shallow embedding of `handler.go` from `gleandroj/go-whatsapp`: the observer
registry (`AddHandler`), the fan-out dispatcher (`handleMessage`), and the node
router (`dispatch`), together with theorems about their delivery behaviour.

Concurrency is modelled by recording, in order, the delivery tasks a call
starts: every `go x.HandleX(m)` in the source becomes one `Delivery` record in
the result list. The claims under study are about which deliveries are started
(and which contact-store calls and diagnostic writes happen), not about task
interleavings, so this trace model is adequate.
-/

/-- The seven typed chat-message variants of the source (`TextMessage`,
`ImageMessage`, `VideoMessage`, `AudioMessage`, `DocumentMessage`,
`LocationMessage`, `LiveLocationMessage`). Their payload fields are never
inspected by `handler.go`, so they are abstracted into one `Nat` payload
carried next to the variant tag. -/
inductive ChatVariant
  | text
  | image
  | video
  | audio
  | document
  | location
  | liveLocation
deriving DecidableEq

/-- A Go `interface` value of the shapes that can reach `handleMessage` or sit
inside a node's content sequence: Go `nil`, an `error` (abstracted to a `Nat`
identity), a `string`, one of the seven chat-message structs, a raw protobuf
envelope `*proto.WebMessageInfo` (abstracted to a `Nat` identity), or any
other dynamic type (`goOther`, with a `Nat` identity). -/
inductive GoValue
  | goNil
  | goError (e : Nat)
  | goString (s : String)
  | goChat (v : ChatVariant) (p : Nat)
  | goRaw (r : Nat)
  | goOther (t : Nat)
deriving DecidableEq

/-- The content field of a `binary.Node`: either a `[]interface` sequence
(the only shape the "action" branch unwraps) or any other opaque value. -/
inductive NodeContent
  | seq (xs : List GoValue)
  | blob (b : Nat)
deriving DecidableEq

/-- A `binary.Node`: a description tag, a string-to-string attribute map
(modelled as an association list; Go map indexing yields `""` for a missing
key, see `mapGet`), and a content value. -/
structure Node where
  description : String
  attributes : List (String × String)
  content : NodeContent
deriving DecidableEq

/-- Go map indexing `m[k]` on a `map[string]string`: the stored value, or the
zero value `""` when the key is absent. -/
def mapGet (m : List (String × String)) (k : String) : String :=
  match m.find? (fun p => p.1 == k) with
  | some p => p.2
  | none => ""

/-- The argument of `dispatch`: a `*binary.Node` or one of the plain values. -/
inductive Msg
  | node (n : Node)
  | val (v : GoValue)
deriving DecidableEq

/-- A registered handler. Go probes at delivery time whether the dynamic type
implements each optional interface (`TextMessageHandler`, ...); the embedding
records the outcome of each probe as a boolean field. Every handler implements
the baseline `Handler` interface (`HandleError`) by its static type. `hid`
distinguishes otherwise equal handlers. -/
structure Handler where
  hid : Nat
  hasJson : Bool
  hasText : Bool
  hasImage : Bool
  hasVideo : Bool
  hasAudio : Bool
  hasDocument : Bool
  hasLocation : Bool
  hasLiveLocation : Bool
  hasRaw : Bool
deriving DecidableEq

/-- The capability interfaces of `handler.go`: the baseline `Handler`
(`HandleError`) and the nine optional per-kind interfaces. -/
inductive Capability
  | capError
  | capJson
  | capText
  | capImage
  | capVideo
  | capAudio
  | capDocument
  | capLocation
  | capLiveLocation
  | capRaw
deriving DecidableEq

/-- Whether a handler satisfies a capability interface: the baseline is always
satisfied (guaranteed by the static type `Handler`), the optional ones by the
recorded probe outcome. -/
def hasCap (h : Handler) : Capability → Bool
  | .capError => true
  | .capJson => h.hasJson
  | .capText => h.hasText
  | .capImage => h.hasImage
  | .capVideo => h.hasVideo
  | .capAudio => h.hasAudio
  | .capDocument => h.hasDocument
  | .capLocation => h.hasLocation
  | .capLiveLocation => h.hasLiveLocation
  | .capRaw => h.hasRaw

/-- One started delivery task: `go x.HandleX(m)` is recorded as the target
handler, the capability method invoked, and the value delivered. -/
structure Delivery where
  target : Handler
  cap : Capability
  payload : GoValue
deriving DecidableEq

/-- The observable effects of one `handleMessage` call: the delivery tasks it
starts, in source order, and the writes it makes to the diagnostic sink.
The source body of `handleMessage` contains no print statement and its type
switch has no default case, hence every branch below records an empty `diag`. -/
structure HandleResult where
  deliveries : List Delivery
  diag : List String
deriving DecidableEq

/-- The capability an event value is routed to by `handleMessage`'s type
switch, or `none` when no case of the switch matches the value. -/
def eventCap : GoValue → Option Capability
  | .goError _ => some .capError
  | .goString _ => some .capJson
  | .goChat .text _ => some .capText
  | .goChat .image _ => some .capImage
  | .goChat .video _ => some .capVideo
  | .goChat .audio _ => some .capAudio
  | .goChat .document _ => some .capDocument
  | .goChat .location _ => some .capLocation
  | .goChat .liveLocation _ => some .capLiveLocation
  | .goRaw _ => some .capRaw
  | .goNil => none
  | .goOther _ => none

/-- `handleMessage(message, handlers)` of handler.go: a type switch on the
message. An `error` is delivered to every handler's `HandleError` with no
interface probe; each other recognized kind is delivered to exactly the
handlers whose probe for the matching optional interface succeeds; a value
matching no case falls through the switch and nothing happens. -/
def handleMessage (message : GoValue) (handlers : List Handler) : HandleResult :=
  match message with
  | .goError e =>
    ⟨handlers.map fun h => ⟨h, .capError, .goError e⟩, []⟩
  | .goString s =>
    ⟨handlers.filterMap fun h =>
      if h.hasJson then some ⟨h, .capJson, .goString s⟩ else none, []⟩
  | .goChat .text p =>
    ⟨handlers.filterMap fun h =>
      if h.hasText then some ⟨h, .capText, .goChat .text p⟩ else none, []⟩
  | .goChat .image p =>
    ⟨handlers.filterMap fun h =>
      if h.hasImage then some ⟨h, .capImage, .goChat .image p⟩ else none, []⟩
  | .goChat .video p =>
    ⟨handlers.filterMap fun h =>
      if h.hasVideo then some ⟨h, .capVideo, .goChat .video p⟩ else none, []⟩
  | .goChat .audio p =>
    ⟨handlers.filterMap fun h =>
      if h.hasAudio then some ⟨h, .capAudio, .goChat .audio p⟩ else none, []⟩
  | .goChat .document p =>
    ⟨handlers.filterMap fun h =>
      if h.hasDocument then some ⟨h, .capDocument, .goChat .document p⟩ else none, []⟩
  | .goChat .location p =>
    ⟨handlers.filterMap fun h =>
      if h.hasLocation then some ⟨h, .capLocation, .goChat .location p⟩ else none, []⟩
  | .goChat .liveLocation p =>
    ⟨handlers.filterMap fun h =>
      if h.hasLiveLocation then some ⟨h, .capLiveLocation, .goChat .liveLocation p⟩ else none, []⟩
  | .goRaw r =>
    ⟨handlers.filterMap fun h =>
      if h.hasRaw then some ⟨h, .capRaw, .goRaw r⟩ else none, []⟩
  | .goNil => ⟨[], []⟩
  | .goOther _ => ⟨[], []⟩

/-- `AddHandler(handler)` of handler.go: `wac.handler = append(wac.handler, handler)`. -/
def AddHandler (handlers : List Handler) (h : Handler) : List Handler :=
  handlers ++ [h]

/-- Modelled from the spec: the message decoder `parseProtoMessage` lives in a
file of this repository that is not under src/. The spec describes it as "a
pure function that converts a raw protocol envelope into one of the typed
chat-message variants, or indicates 'not representable' (no typed variant
produced)". It is modelled as an arbitrary function from the raw envelope's
identity to an optional variant-and-payload pair. -/
abbrev Decoder := Nat → Option (ChatVariant × Nat)

/-- Modelled from the spec: the value `parseProtoMessage(v)` hands to
`wac.handle` — the typed chat message when the decoder produces one, and
otherwise a value representing "no typed variant produced", which matches no
case of `handleMessage`'s switch and therefore yields no delivery (the spec:
"If decoding yields no representable variant, only the raw delivery occurs"). -/
def decodeValue (decode : Decoder) (r : Nat) : GoValue :=
  match decode r with
  | some (v, p) => .goChat v p
  | none => .goNil

/-- The Go `%T` verb on the shapes of `GoValue`, used by `dispatch`'s default
branch diagnostic. -/
def typeName : GoValue → String
  | .goNil => "<nil>"
  | .goError _ => "error"
  | .goString _ => "string"
  | .goChat _ _ => "whatsapp.ChatMessage"
  | .goRaw _ => "*proto.WebMessageInfo"
  | .goOther _ => "unknown"

/-- The observable effects of one `dispatch` call: the values submitted to
`wac.handle` in order, the contents forwarded to `wac.updateContacts`, and the
lines written to stderr. -/
structure DispatchResult where
  submitted : List GoValue
  contactCalls : List NodeContent
  stderrOut : List String
deriving DecidableEq

/-- The loop body of the "action" branch of `dispatch`: for each element of
the content sequence that is a `*proto.WebMessageInfo`, submit the raw
envelope itself and then the decoder's output; skip every other element. -/
def actionSubmits (decode : Decoder) : List GoValue → List GoValue
  | [] => []
  | .goRaw r :: xs => .goRaw r :: decodeValue decode r :: actionSubmits decode xs
  | _ :: xs => actionSubmits decode xs

/-- `dispatch(msg)` of handler.go: `nil` returns immediately; a `*binary.Node`
with description "action" and sequence content submits raw and decoded values
per `actionSubmits`; a node with description "response" and attribute
`type == "contacts"` forwards its content to `updateContacts`; any other node
does nothing; a top-level `error` or `string` is submitted to `wac.handle`;
every other shape hits the default branch, which prints a diagnostic to
stderr. -/
def dispatch (decode : Decoder) (msg : Msg) : DispatchResult :=
  match msg with
  | .val .goNil => ⟨[], [], []⟩
  | .node n =>
    if n.description = "action" then
      match n.content with
      | .seq xs => ⟨actionSubmits decode xs, [], []⟩
      | .blob _ => ⟨[], [], []⟩
    else if n.description = "response" ∧ mapGet n.attributes "type" = "contacts" then
      ⟨[], [n.content], []⟩
    else
      ⟨[], [], []⟩
  | .val (.goError e) => ⟨[.goError e], [], []⟩
  | .val (.goString s) => ⟨[.goString s], [], []⟩
  | .val v => ⟨[], [], ["unknown type in dipatcher chan: " ++ typeName v]⟩

/-- All delivery tasks started by one `dispatch` call: each value submitted to
`wac.handle` is passed to `handleMessage` with the connection's handler list. -/
def dispatchDeliveries (decode : Decoder) (handlers : List Handler) (msg : Msg) : List Delivery :=
  ((dispatch decode msg).submitted.map fun v => (handleMessage v handlers).deliveries).flatten

/-- Whether a Go value is a raw protobuf envelope (`*proto.WebMessageInfo`). -/
def isRawVal : GoValue → Bool
  | .goRaw _ => true
  | _ => false

/-- Whether a Go value is one of the typed chat-message structs. -/
def isChatVal : GoValue → Bool
  | .goChat _ _ => true
  | _ => false

/-- Whether a content element is a raw envelope that the decoder turns into a
typed chat-message variant. -/
def decodesOk (decode : Decoder) : GoValue → Bool
  | .goRaw r => (decode r).isSome
  | _ => false

/-- The top-level shapes of `dispatch` that fall into its `default` branch:
neither `nil`, nor a node, nor an `error`, nor a `string`. -/
def topUnrecognized : GoValue → Bool
  | .goRaw _ => true
  | .goChat _ _ => true
  | .goOther _ => true
  | .goNil => false
  | .goError _ => false
  | .goString _ => false

/-- A handler implementing every optional interface. -/
def sampleHandler : Handler :=
  ⟨0, true, true, true, true, true, true, true, true, true⟩

/-- A handler implementing only the baseline `Handler` interface. -/
def errOnlyHandler : Handler :=
  ⟨1, false, false, false, false, false, false, false, false, false⟩

/-- A decoder that can represent no envelope. -/
def dec0 : Decoder := fun _ => none

/-- A decoder that turns envelope 0 into a text message and fails elsewhere. -/
def dec3 : Decoder := fun r => if r = 0 then some (.text, 5) else none

/-- Content elements of a concrete "action" node: two raw envelopes, of which
`dec3` decodes only the first, and one non-envelope element. -/
def elems3 : List GoValue := [.goRaw 0, .goRaw 1, .goString "x"]

/-- A concrete "action" node. -/
def node3 : Node := ⟨"action", [], .seq elems3⟩

/-- A concrete contacts-response node. -/
def node5 : Node := ⟨"response", [("type", "contacts")], .blob 2⟩

/-- A concrete node matching neither `dispatch` branch. -/
def node9 : Node := ⟨"response", [("type", "x")], .blob 0⟩

example :
    (handleMessage (.goString "s") [sampleHandler, errOnlyHandler]).deliveries
      = [⟨sampleHandler, .capJson, .goString "s"⟩] := by decide

example :
    (handleMessage (.goError 3) [sampleHandler, errOnlyHandler]).deliveries
      = [⟨sampleHandler, .capError, .goError 3⟩, ⟨errOnlyHandler, .capError, .goError 3⟩] := by
  decide

example :
    dispatch (fun _ => some (.text, 9)) (.node ⟨"action", [], .seq [.goRaw 4, .goString "x"]⟩)
      = ⟨[.goRaw 4, .goChat .text 9], [], []⟩ := by decide

example :
    dispatch (fun _ => none) (.node ⟨"response", [("type", "contacts")], .blob 2⟩)
      = ⟨[], [.blob 2], []⟩ := by decide

example :
    dispatch (fun _ => none) (.val (.goRaw 4))
      = ⟨[], [], ["unknown type in dipatcher chan: *proto.WebMessageInfo"]⟩ := by decide

/-! ### General lemmas about the fan-out loops -/

lemma mem_map_deliver {hs : List Handler} {c : Capability} {E : GoValue} {d : Delivery}
    (hd : d ∈ hs.map fun h => (⟨h, c, E⟩ : Delivery)) :
    d.cap = c ∧ d.payload = E ∧ d.target ∈ hs := by
  rcases List.mem_map.1 hd with ⟨h, hh, rfl⟩
  exact ⟨rfl, rfl, hh⟩

lemma mem_filterMap_deliver {hs : List Handler} {p : Handler → Bool} {c : Capability}
    {E : GoValue} {d : Delivery}
    (hd : d ∈ hs.filterMap fun h => if p h then some (⟨h, c, E⟩ : Delivery) else none) :
    d.cap = c ∧ d.payload = E ∧ d.target ∈ hs ∧ p d.target = true := by
  rcases List.mem_filterMap.1 hd with ⟨h, hh, hif⟩
  by_cases hp : p h = true
  · rw [if_pos hp] at hif
    obtain rfl := Option.some.inj hif
    exact ⟨rfl, rfl, hh, hp⟩
  · rw [if_neg hp] at hif
    exact absurd hif (by simp)

lemma count_map_deliver (hs : List Handler) (c : Capability) (E : GoValue) (H : Handler) :
    ((hs.map fun h => (⟨h, c, E⟩ : Delivery)).count ⟨H, c, E⟩) = hs.count H := by
  induction hs with
  | nil => rfl
  | cons a t ih =>
    rw [List.map_cons, List.count_cons, List.count_cons, ih]
    by_cases ha : a = H
    · subst ha
      simp
    · simp [ha, Delivery.mk.injEq]

lemma count_filterMap_deliver (hs : List Handler) (p : Handler → Bool) (c : Capability)
    (E : GoValue) (H : Handler) (hp : p H = true) :
    ((hs.filterMap fun h => if p h then some (⟨h, c, E⟩ : Delivery) else none).count ⟨H, c, E⟩)
      = hs.count H := by
  induction hs with
  | nil => rfl
  | cons a t ih =>
    rw [List.filterMap_cons]
    by_cases ha : a = H
    · subst ha
      rw [if_pos hp, List.count_cons, List.count_cons, ih]
      simp
    · by_cases hpa : p a = true
      · rw [if_pos hpa, List.count_cons, List.count_cons, ih]
        simp [ha, Delivery.mk.injEq]
      · rw [if_neg hpa, ih, List.count_cons]
        simp [ha]

lemma handleMessage_mem_aux {hs : List Handler} {p : Handler → Bool} {c : Capability}
    {E : GoValue} {d : Delivery}
    (hagree : ∀ h, p h = hasCap h c)
    (hd : d ∈ hs.filterMap fun h => if p h then some (⟨h, c, E⟩ : Delivery) else none) :
    d.payload = E ∧ some c = some d.cap ∧ hasCap d.target d.cap = true ∧ d.target ∈ hs := by
  obtain ⟨hc, hpay, ht, hpt⟩ := mem_filterMap_deliver hd
  refine ⟨hpay, by rw [hc], ?_, ht⟩
  rw [hc, ← hagree d.target]
  exact hpt

/-- Every delivery started by `handleMessage` carries the message itself as
payload, invokes the capability the type switch selects for that message, and
targets a handler in the list that satisfies that capability. -/
lemma handleMessage_mem {E : GoValue} {hs : List Handler} {d : Delivery}
    (hd : d ∈ (handleMessage E hs).deliveries) :
    d.payload = E ∧ eventCap E = some d.cap ∧ hasCap d.target d.cap = true ∧ d.target ∈ hs := by
  cases E with
  | goError e =>
    obtain ⟨hc, hpay, ht⟩ := mem_map_deliver hd
    exact ⟨hpay, by rw [hc]; rfl, by rw [hc]; rfl, ht⟩
  | goString s => exact handleMessage_mem_aux (fun h => rfl) hd
  | goChat v q => cases v <;> exact handleMessage_mem_aux (fun h => rfl) hd
  | goRaw r => exact handleMessage_mem_aux (fun h => rfl) hd
  | goNil => exact absurd hd (by simp [handleMessage])
  | goOther t => exact absurd hd (by simp [handleMessage])

/-- `handleMessage` writes nothing to the diagnostic sink, on any input. -/
lemma handleMessage_diag (E : GoValue) (hs : List Handler) :
    (handleMessage E hs).diag = [] := by
  cases E with
  | goChat v q => cases v <;> rfl
  | goNil => rfl
  | goError e => rfl
  | goString s => rfl
  | goRaw r => rfl
  | goOther t => rfl

/-- A value matching no case of the type switch produces no effect at all. -/
lemma handleMessage_none {E : GoValue} (hE : eventCap E = none) (hs : List Handler) :
    handleMessage E hs = ⟨[], []⟩ := by
  cases E with
  | goNil => rfl
  | goOther t => rfl
  | goError e => exact absurd hE (by simp [eventCap])
  | goString s => exact absurd hE (by simp [eventCap])
  | goChat v q => cases v <;> exact absurd hE (by simp [eventCap])
  | goRaw r => exact absurd hE (by simp [eventCap])

/-- Exactly-once count: when the type switch routes `E` to capability `c` and
handler `H` satisfies `c`, the number of deliveries of `E` to `H`'s method
equals the number of occurrences of `H` in the handler list. -/
lemma handleMessage_count {E : GoValue} {c : Capability} (hc : eventCap E = some c)
    (hs : List Handler) (H : Handler) (hcap : hasCap H c = true) :
    (((handleMessage E hs).deliveries).count ⟨H, c, E⟩) = hs.count H := by
  cases E with
  | goError e =>
    obtain rfl : Capability.capError = c := by simpa [eventCap] using hc
    simpa [handleMessage] using count_map_deliver hs .capError (.goError e) H
  | goString s =>
    obtain rfl : Capability.capJson = c := by simpa [eventCap] using hc
    simpa [handleMessage] using
      count_filterMap_deliver hs (fun h => h.hasJson) .capJson (.goString s) H
        (by simpa [hasCap] using hcap)
  | goChat v q =>
    cases v with
    | text =>
      obtain rfl : Capability.capText = c := by simpa [eventCap] using hc
      simpa [handleMessage] using
        count_filterMap_deliver hs (fun h => h.hasText) .capText (.goChat .text q) H
          (by simpa [hasCap] using hcap)
    | image =>
      obtain rfl : Capability.capImage = c := by simpa [eventCap] using hc
      simpa [handleMessage] using
        count_filterMap_deliver hs (fun h => h.hasImage) .capImage (.goChat .image q) H
          (by simpa [hasCap] using hcap)
    | video =>
      obtain rfl : Capability.capVideo = c := by simpa [eventCap] using hc
      simpa [handleMessage] using
        count_filterMap_deliver hs (fun h => h.hasVideo) .capVideo (.goChat .video q) H
          (by simpa [hasCap] using hcap)
    | audio =>
      obtain rfl : Capability.capAudio = c := by simpa [eventCap] using hc
      simpa [handleMessage] using
        count_filterMap_deliver hs (fun h => h.hasAudio) .capAudio (.goChat .audio q) H
          (by simpa [hasCap] using hcap)
    | document =>
      obtain rfl : Capability.capDocument = c := by simpa [eventCap] using hc
      simpa [handleMessage] using
        count_filterMap_deliver hs (fun h => h.hasDocument) .capDocument (.goChat .document q) H
          (by simpa [hasCap] using hcap)
    | location =>
      obtain rfl : Capability.capLocation = c := by simpa [eventCap] using hc
      simpa [handleMessage] using
        count_filterMap_deliver hs (fun h => h.hasLocation) .capLocation (.goChat .location q) H
          (by simpa [hasCap] using hcap)
    | liveLocation =>
      obtain rfl : Capability.capLiveLocation = c := by simpa [eventCap] using hc
      simpa [handleMessage] using
        count_filterMap_deliver hs (fun h => h.hasLiveLocation) .capLiveLocation
          (.goChat .liveLocation q) H (by simpa [hasCap] using hcap)
  | goRaw r =>
    obtain rfl : Capability.capRaw = c := by simpa [eventCap] using hc
    simpa [handleMessage] using
      count_filterMap_deliver hs (fun h => h.hasRaw) .capRaw (.goRaw r) H
        (by simpa [hasCap] using hcap)
  | goNil => simp [eventCap] at hc
  | goOther t => simp [eventCap] at hc

/-- A `handleMessage` call never starts a delivery whose payload differs from
its message. -/
lemma handleMessage_count_ne {E v : GoValue} (hne : E ≠ v) (c : Capability)
    (hs : List Handler) (H : Handler) :
    (((handleMessage E hs).deliveries).count ⟨H, c, v⟩) = 0 := by
  rw [List.count_eq_zero]
  intro hmem
  exact hne ((handleMessage_mem hmem).1).symm

/-- Closed form for the delivery count of an arbitrary message against an
arbitrary recognized event record. -/
lemma handleMessage_count_general (E v : GoValue) (c : Capability)
    (hv : eventCap v = some c) (hs : List Handler) (H : Handler) :
    (((handleMessage E hs).deliveries).count ⟨H, c, v⟩)
      = if E = v ∧ hasCap H c = true then hs.count H else 0 := by
  by_cases hEv : E = v
  · subst hEv
    by_cases hcap : hasCap H c = true
    · rw [if_pos ⟨rfl, hcap⟩]
      exact handleMessage_count hv hs H hcap
    · rw [if_neg (by tauto), List.count_eq_zero]
      intro hmem
      obtain ⟨hpay, hcd, hcapd, hmemt⟩ := handleMessage_mem hmem
      exact hcap hcapd
  · rw [if_neg (by tauto)]
    exact handleMessage_count_ne hEv c hs H

/-- Delivery count across a list of submitted values: each submission of `v`
contributes one delivery per occurrence of a `c`-capable handler `H`. -/
lemma flatten_count (ws : List GoValue) (hs : List Handler) (H : Handler)
    (c : Capability) (v : GoValue) (hv : eventCap v = some c)
    (hcap : hasCap H c = true) :
    (((ws.map fun w => (handleMessage w hs).deliveries).flatten).count ⟨H, c, v⟩)
      = ws.count v * hs.count H := by
  induction ws with
  | nil => simp
  | cons w t ih =>
    rw [List.map_cons, List.flatten_cons, List.count_append, ih, List.count_cons,
      handleMessage_count_general w v c hv hs H]
    by_cases hwv : w = v
    · subst hwv
      simp [hcap, Nat.add_mul, Nat.add_comm]
    · simp [hwv]

lemma actionSubmits_countRaw (decode : Decoder) (xs : List GoValue) :
    (actionSubmits decode xs).countP isRawVal = xs.countP isRawVal := by
  induction xs with
  | nil => rfl
  | cons x t ih =>
    cases x with
    | goRaw r =>
      rcases hd : decode r with _ | ⟨v, q⟩ <;>
        simp [actionSubmits, decodeValue, hd, isRawVal, List.countP_cons, ih]
    | goNil => simp [actionSubmits, isRawVal, List.countP_cons, ih]
    | goError e => simp [actionSubmits, isRawVal, List.countP_cons, ih]
    | goString s => simp [actionSubmits, isRawVal, List.countP_cons, ih]
    | goChat v q => simp [actionSubmits, isRawVal, List.countP_cons, ih]
    | goOther u => simp [actionSubmits, isRawVal, List.countP_cons, ih]

lemma actionSubmits_countChat (decode : Decoder) (xs : List GoValue) :
    (actionSubmits decode xs).countP isChatVal = xs.countP (decodesOk decode) := by
  induction xs with
  | nil => rfl
  | cons x t ih =>
    cases x with
    | goRaw r =>
      rcases hd : decode r with _ | ⟨v, q⟩ <;>
        simp [actionSubmits, decodeValue, hd, isChatVal, decodesOk, List.countP_cons, ih]
    | goNil => simp [actionSubmits, isChatVal, decodesOk, List.countP_cons, ih]
    | goError e => simp [actionSubmits, isChatVal, decodesOk, List.countP_cons, ih]
    | goString s => simp [actionSubmits, isChatVal, decodesOk, List.countP_cons, ih]
    | goChat v q => simp [actionSubmits, isChatVal, decodesOk, List.countP_cons, ih]
    | goOther u => simp [actionSubmits, isChatVal, decodesOk, List.countP_cons, ih]

/-- Every delivery started by a `dispatch` call goes to a handler of the list
that satisfies the capability the type switch selects for the payload. -/
lemma dispatchDeliveries_mem {decode : Decoder} {hs : List Handler} {msg : Msg}
    {d : Delivery} (hd : d ∈ dispatchDeliveries decode hs msg) :
    eventCap d.payload = some d.cap ∧ hasCap d.target d.cap = true ∧ d.target ∈ hs := by
  rw [dispatchDeliveries] at hd
  rcases List.mem_flatten.1 hd with ⟨l, hl, hdl⟩
  rcases List.mem_map.1 hl with ⟨w, hw, rfl⟩
  obtain ⟨hpay, hc, hcap, hmem⟩ := handleMessage_mem hdl
  rw [hpay]
  exact ⟨hc, hcap, hmem⟩

/-! ### The claims -/

/-- Claim C1: for every recognized event value and every handler in the list
satisfying the event's capability interface, a single `handleMessage` call
starts exactly one delivery of the event to that handler's capability method,
one per occurrence of the handler in the list. -/
theorem recognized_event_delivered_exactly_once (E : GoValue) (c : Capability)
    (hc : eventCap E = some c) (hs : List Handler) (H : Handler)
    (hcap : hasCap H c = true) :
    (((handleMessage E hs).deliveries).count ⟨H, c, E⟩) = hs.count H :=
  handleMessage_count hc hs H hcap

/-- Witness for C1: a status string delivered to a json-capable handler
registered twice, among an incapable handler. -/
theorem recognized_event_delivered_exactly_once_w :
    eventCap (.goString "s") = some .capJson
    ∧ hasCap sampleHandler .capJson = true
    ∧ (((handleMessage (.goString "s")
          [sampleHandler, errOnlyHandler, sampleHandler]).deliveries).count
        ⟨sampleHandler, .capJson, .goString "s"⟩)
        = ([sampleHandler, errOnlyHandler, sampleHandler].count sampleHandler) :=
  ⟨rfl, rfl,
    recognized_event_delivered_exactly_once (.goString "s") .capJson rfl
      [sampleHandler, errOnlyHandler, sampleHandler] sampleHandler rfl⟩

/-- Claim C2: an error value is delivered to every handler's baseline
`HandleError`, once per occurrence, with no interface probe: the delivery
list is literally the map of the handler list. -/
theorem error_delivered_universally (e : Nat) (hs : List Handler) (H : Handler)
    (hH : H ∈ hs) :
    (handleMessage (.goError e) hs).deliveries
        = (hs.map fun h => ⟨h, .capError, .goError e⟩)
    ∧ (⟨H, .capError, .goError e⟩ : Delivery) ∈ (handleMessage (.goError e) hs).deliveries
    ∧ (((handleMessage (.goError e) hs).deliveries).count ⟨H, .capError, .goError e⟩)
        = hs.count H :=
  ⟨rfl, List.mem_map.2 ⟨H, hH, rfl⟩,
    handleMessage_count (show eventCap (.goError e) = some .capError from rfl) hs H rfl⟩

/-- Witness for C2: an error reaches a handler that implements nothing
optional. -/
theorem error_delivered_universally_w :
    errOnlyHandler ∈ [sampleHandler, errOnlyHandler]
    ∧ ((handleMessage (.goError 3) [sampleHandler, errOnlyHandler]).deliveries
        = ([sampleHandler, errOnlyHandler].map fun h => ⟨h, .capError, .goError 3⟩)
      ∧ (⟨errOnlyHandler, .capError, .goError 3⟩ : Delivery)
          ∈ (handleMessage (.goError 3) [sampleHandler, errOnlyHandler]).deliveries
      ∧ (((handleMessage (.goError 3) [sampleHandler, errOnlyHandler]).deliveries).count
            ⟨errOnlyHandler, .capError, .goError 3⟩)
          = ([sampleHandler, errOnlyHandler].count errOnlyHandler)) :=
  ⟨by decide, error_delivered_universally 3 [sampleHandler, errOnlyHandler]
      errOnlyHandler (by decide)⟩

/-- Claim C4: a non-error event is never delivered to a handler lacking the
matching capability interface; the skip leaves no trace on the diagnostic
sink. -/
theorem non_capable_handler_not_delivered (E : GoValue) (c : Capability)
    (hc : eventCap E = some c) (_hcne : c ≠ .capError) (hs : List Handler)
    (H : Handler) (hcap : hasCap H c = false) :
    (∀ d ∈ (handleMessage E hs).deliveries, d.target ≠ H)
    ∧ (((handleMessage E hs).deliveries).countP fun d => d.target == H) = 0
    ∧ (handleMessage E hs).diag = [] := by
  have key : ∀ d ∈ (handleMessage E hs).deliveries, d.target ≠ H := by
    intro d hd heq
    obtain ⟨hpay, hcd, hcapd, hmemt⟩ := handleMessage_mem hd
    rw [hc] at hcd
    obtain hcc := Option.some.inj hcd
    rw [heq, ← hcc] at hcapd
    rw [hcap] at hcapd
    exact absurd hcapd (by simp)
  refine ⟨key, ?_, handleMessage_diag E hs⟩
  rw [List.countP_eq_zero]
  intro d hd
  simpa using key d hd

/-- Witness for C4: a text message never reaches a handler implementing only
the baseline interface. -/
theorem non_capable_handler_not_delivered_w :
    eventCap (.goChat .text 5) = some .capText
    ∧ Capability.capText ≠ Capability.capError
    ∧ hasCap errOnlyHandler .capText = false
    ∧ ((∀ d ∈ (handleMessage (.goChat .text 5) [errOnlyHandler, sampleHandler]).deliveries,
          d.target ≠ errOnlyHandler)
      ∧ (((handleMessage (.goChat .text 5) [errOnlyHandler, sampleHandler]).deliveries).countP
            fun d => d.target == errOnlyHandler) = 0
      ∧ (handleMessage (.goChat .text 5) [errOnlyHandler, sampleHandler]).diag = []) :=
  ⟨rfl, by decide, rfl,
    non_capable_handler_not_delivered (.goChat .text 5) .capText rfl (by decide)
      [errOnlyHandler, sampleHandler] errOnlyHandler rfl⟩

/-- Claim C3: one `dispatch` of an "action" node whose content sequence holds
`k` raw envelopes, `d` of which decode, submits exactly `k` raw-envelope
events and exactly `d` chat-message events to the fan-out dispatcher; every
resulting delivery targets a handler satisfying the payload's capability, and
each submitted event reaches each capable handler exactly once per occurrence
in the list. An element that fails to decode contributes only its raw
submission. -/
theorem action_node_routing_counts (decode : Decoder) (n : Node) (xs : List GoValue)
    (hdesc : n.description = "action") (hcont : n.content = .seq xs) :
    ((dispatch decode (.node n)).submitted.countP isRawVal = xs.countP isRawVal)
    ∧ ((dispatch decode (.node n)).submitted.countP isChatVal
        = xs.countP (decodesOk decode))
    ∧ ((dispatch decode (.node n)).contactCalls = []
      ∧ (dispatch decode (.node n)).stderrOut = [])
    ∧ (∀ hs H c v, eventCap v = some c → hasCap H c = true →
        ((dispatchDeliveries decode hs (.node n)).count ⟨H, c, v⟩)
          = ((dispatch decode (.node n)).submitted.count v) * hs.count H)
    ∧ (∀ hs, ∀ d ∈ dispatchDeliveries decode hs (.node n),
        eventCap d.payload = some d.cap ∧ hasCap d.target d.cap = true) := by
  have hsub : dispatch decode (.node n) = ⟨actionSubmits decode xs, [], []⟩ := by
    simp [dispatch, hdesc, hcont]
  refine ⟨?_, ?_, ?_, ?_, ?_⟩
  · rw [hsub, actionSubmits_countRaw]
  · rw [hsub, actionSubmits_countChat]
  · rw [hsub]
    exact ⟨rfl, rfl⟩
  · intro hs H c v hv hcap
    rw [dispatchDeliveries, hsub]
    exact flatten_count (actionSubmits decode xs) hs H c v hv hcap
  · intro hs d hd
    obtain ⟨h1, h2, _⟩ := dispatchDeliveries_mem hd
    exact ⟨h1, h2⟩

/-- Witness for C3: `node3` holds two raw envelopes and one string element;
`dec3` decodes only the first envelope. -/
theorem action_node_routing_counts_w :
    node3.description = "action" ∧ node3.content = NodeContent.seq elems3
    ∧ (((dispatch dec3 (.node node3)).submitted.countP isRawVal = elems3.countP isRawVal)
      ∧ ((dispatch dec3 (.node node3)).submitted.countP isChatVal
          = elems3.countP (decodesOk dec3))
      ∧ ((dispatch dec3 (.node node3)).contactCalls = []
        ∧ (dispatch dec3 (.node node3)).stderrOut = [])
      ∧ (∀ hs H c v, eventCap v = some c → hasCap H c = true →
          ((dispatchDeliveries dec3 hs (.node node3)).count ⟨H, c, v⟩)
            = ((dispatch dec3 (.node node3)).submitted.count v) * hs.count H)
      ∧ (∀ hs, ∀ d ∈ dispatchDeliveries dec3 hs (.node node3),
          eventCap d.payload = some d.cap ∧ hasCap d.target d.cap = true)) :=
  ⟨rfl, rfl, action_node_routing_counts dec3 node3 elems3 rfl rfl⟩

/-- Claim C5: a "response" node carrying attribute `type == "contacts"` sends
its content to the contact store exactly once and produces no event
submission, no delivery, and no diagnostic output. -/
theorem contacts_response_routed_to_store (decode : Decoder) (n : Node)
    (hdesc : n.description = "response")
    (htype : mapGet n.attributes "type" = "contacts") :
    dispatch decode (.node n) = ⟨[], [n.content], []⟩
    ∧ ∀ hs, dispatchDeliveries decode hs (.node n) = [] := by
  have hd : dispatch decode (.node n) = ⟨[], [n.content], []⟩ := by
    simp [dispatch, hdesc, htype]
  exact ⟨hd, fun hs => by rw [dispatchDeliveries, hd]; rfl⟩

/-- Witness for C5: a concrete contacts-response node. -/
theorem contacts_response_routed_to_store_w :
    node5.description = "response"
    ∧ mapGet node5.attributes "type" = "contacts"
    ∧ (dispatch dec0 (.node node5) = ⟨[], [node5.content], []⟩
      ∧ ∀ hs, dispatchDeliveries dec0 hs (.node node5) = []) :=
  ⟨rfl, rfl, contacts_response_routed_to_store dec0 node5 rfl rfl⟩

/-- Counterexample to claim C6 as stated: at the unrecognized value
`goOther 7`, `handleMessage` delivers nothing — but it also logs nothing to
the diagnostic sink, so the claim's logging conjunct fails. -/
theorem unrecognized_event_logged_refuted :
    ¬ ((handleMessage (.goOther 7) [sampleHandler]).deliveries = []
       ∧ (handleMessage (.goOther 7) [sampleHandler]).diag ≠ []) := by
  decide

/-- Claim C6 amended: a value whose shape matches none of the recognized kinds
produces no delivery to any observer and `handleMessage` itself writes nothing
to the diagnostic sink (the source switch has no default case; the diagnostic
for unknown shapes is written only by `dispatch`'s top-level default branch). -/
theorem unrecognized_event_dropped_silently (E : GoValue) (hE : eventCap E = none)
    (hs : List Handler) :
    (handleMessage E hs).deliveries = [] ∧ (handleMessage E hs).diag = [] := by
  rw [handleMessage_none hE hs]
  exact ⟨rfl, rfl⟩

/-- Witness for amended C6: the unrecognized value `goOther 7`. -/
theorem unrecognized_event_dropped_silently_w :
    eventCap (.goOther 7) = none
    ∧ ((handleMessage (.goOther 7) [sampleHandler]).deliveries = []
      ∧ (handleMessage (.goOther 7) [sampleHandler]).diag = []) :=
  ⟨rfl, unrecognized_event_dropped_silently (.goOther 7) rfl [sampleHandler]⟩

/-- Claim C7: a raw envelope passed directly to `dispatch` at top level hits
the unknown-type default branch — a stderr diagnostic and no submission, no
delivery, no contact-store call — although `handleMessage` recognizes raw
envelopes and delivers them (to every raw-capable handler, exactly once per
occurrence) when they arrive through an action node's content. -/
theorem toplevel_raw_envelope_dropped (decode : Decoder) (r : Nat) :
    dispatch decode (.val (.goRaw r))
        = ⟨[], [], ["unknown type in dipatcher chan: *proto.WebMessageInfo"]⟩
    ∧ (∀ hs, dispatchDeliveries decode hs (.val (.goRaw r)) = [])
    ∧ eventCap (.goRaw r) = some .capRaw
    ∧ (∀ hs H, hasCap H .capRaw = true →
        (((handleMessage (.goRaw r) hs).deliveries).count ⟨H, .capRaw, .goRaw r⟩)
          = hs.count H)
    ∧ (dispatch decode (.node ⟨"action", [], .seq [.goRaw r]⟩)).submitted
        = [.goRaw r, decodeValue decode r] := by
  refine ⟨rfl, fun hs => rfl, rfl, ?_, ?_⟩
  · intro hs H hcap
    exact handleMessage_count (show eventCap (.goRaw r) = some .capRaw from rfl) hs H hcap
  · simp [dispatch, actionSubmits]

/-- Witness for C7: envelope 5, one raw-capable handler. -/
theorem toplevel_raw_envelope_dropped_w :
    dispatch dec0 (.val (.goRaw 5))
        = ⟨[], [], ["unknown type in dipatcher chan: *proto.WebMessageInfo"]⟩
    ∧ dispatchDeliveries dec0 [sampleHandler] (.val (.goRaw 5)) = []
    ∧ eventCap (.goRaw 5) = some .capRaw
    ∧ hasCap sampleHandler .capRaw = true
    ∧ (((handleMessage (.goRaw 5) [sampleHandler]).deliveries).count
          ⟨sampleHandler, .capRaw, .goRaw 5⟩)
        = ([sampleHandler].count sampleHandler)
    ∧ (dispatch dec0 (.node ⟨"action", [], .seq [.goRaw 5]⟩)).submitted
        = [.goRaw 5, decodeValue dec0 5] :=
  ⟨(toplevel_raw_envelope_dropped dec0 5).1,
    (toplevel_raw_envelope_dropped dec0 5).2.1 [sampleHandler],
    (toplevel_raw_envelope_dropped dec0 5).2.2.1,
    rfl,
    (toplevel_raw_envelope_dropped dec0 5).2.2.2.1 [sampleHandler] sampleHandler rfl,
    (toplevel_raw_envelope_dropped dec0 5).2.2.2.2⟩

/-- Claim C8: `dispatch(nil)` is a complete no-op; any other top-level value
that is neither a node, an error, nor a string is reported to stderr and
dropped, with no submission, no delivery and no contact-store call. -/
theorem toplevel_nil_noop_unknown_logged (decode : Decoder) :
    dispatch decode (.val .goNil) = ⟨[], [], []⟩
    ∧ ∀ v : GoValue, topUnrecognized v = true →
        dispatch decode (.val v)
            = ⟨[], [], ["unknown type in dipatcher chan: " ++ typeName v]⟩
        ∧ ∀ hs, dispatchDeliveries decode hs (.val v) = [] := by
  refine ⟨rfl, ?_⟩
  intro v hv
  cases v with
  | goRaw r => exact ⟨rfl, fun hs => rfl⟩
  | goChat w q => exact ⟨rfl, fun hs => rfl⟩
  | goOther t => exact ⟨rfl, fun hs => rfl⟩
  | goNil => exact absurd hv (by simp [topUnrecognized])
  | goError e => exact absurd hv (by simp [topUnrecognized])
  | goString s => exact absurd hv (by simp [topUnrecognized])

/-- Witness for C8: the unknown value `goOther 3`. -/
theorem toplevel_nil_noop_unknown_logged_w :
    dispatch dec0 (.val .goNil) = ⟨[], [], []⟩
    ∧ topUnrecognized (.goOther 3) = true
    ∧ dispatch dec0 (.val (.goOther 3))
        = ⟨[], [], ["unknown type in dipatcher chan: " ++ typeName (.goOther 3)]⟩
    ∧ dispatchDeliveries dec0 [sampleHandler] (.val (.goOther 3)) = [] :=
  ⟨(toplevel_nil_noop_unknown_logged dec0).1, rfl,
    ((toplevel_nil_noop_unknown_logged dec0).2 (.goOther 3) rfl).1,
    ((toplevel_nil_noop_unknown_logged dec0).2 (.goOther 3) rfl).2 [sampleHandler]⟩

/-- Claim C9: a node matching neither the "action" branch nor the
contacts-response branch makes `dispatch` do nothing at all: no submission,
no delivery, no contact-store call, no diagnostic. -/
theorem unmatched_node_noop (decode : Decoder) (n : Node)
    (hA : n.description ≠ "action")
    (hR : ¬(n.description = "response" ∧ mapGet n.attributes "type" = "contacts")) :
    dispatch decode (.node n) = ⟨[], [], []⟩
    ∧ ∀ hs, dispatchDeliveries decode hs (.node n) = [] := by
  have hd : dispatch decode (.node n) = ⟨[], [], []⟩ := by
    simp [dispatch, hA, hR]
  exact ⟨hd, fun hs => by rw [dispatchDeliveries, hd]; rfl⟩

/-- Witness for C9: a "response" node whose type attribute is not "contacts". -/
theorem unmatched_node_noop_w :
    node9.description ≠ "action"
    ∧ ¬(node9.description = "response" ∧ mapGet node9.attributes "type" = "contacts")
    ∧ (dispatch dec0 (.node node9) = ⟨[], [], []⟩
      ∧ ∀ hs, dispatchDeliveries dec0 hs (.node node9) = []) :=
  ⟨by decide, by decide, unmatched_node_noop dec0 node9 (by decide) (by decide)⟩

/-- Claim C10: `AddHandler` is a pure, infallible append: the new handler is
the last element, every earlier entry and its position are unchanged, nothing
is deduplicated — registering the same handler twice yields two entries and
hence two deliveries per matching event. -/
theorem addHandler_pure_append (hs : List Handler) (h : Handler) :
    AddHandler hs h = hs ++ [h]
    ∧ (AddHandler hs h).length = hs.length + 1
    ∧ (AddHandler hs h).getLast? = some h
    ∧ (∀ i, i < hs.length → (AddHandler hs h)[i]? = hs[i]?)
    ∧ (AddHandler (AddHandler hs h) h).count h = hs.count h + 2
    ∧ (∀ E c, eventCap E = some c → hasCap h c = true →
        (((handleMessage E (AddHandler (AddHandler hs h) h)).deliveries).count ⟨h, c, E⟩)
          = hs.count h + 2) := by
  have hcnt : (AddHandler (AddHandler hs h) h).count h = hs.count h + 2 := by
    simp [AddHandler, List.count_append]
  refine ⟨rfl, by simp [AddHandler], by simp [AddHandler], ?_, hcnt, ?_⟩
  · intro i hi
    rw [AddHandler, List.getElem?_append_left hi]
  · intro E c hc hcap
    rw [handleMessage_count hc _ h hcap, hcnt]

/-- Witness for C10: registering `sampleHandler` twice after `errOnlyHandler`
and dispatching a status string. -/
theorem addHandler_pure_append_w :
    AddHandler [errOnlyHandler] sampleHandler = [errOnlyHandler] ++ [sampleHandler]
    ∧ (AddHandler [errOnlyHandler] sampleHandler).length = [errOnlyHandler].length + 1
    ∧ (AddHandler [errOnlyHandler] sampleHandler).getLast? = some sampleHandler
    ∧ (0 : Nat) < [errOnlyHandler].length
    ∧ (AddHandler [errOnlyHandler] sampleHandler)[0]? = [errOnlyHandler][0]?
    ∧ (AddHandler (AddHandler [errOnlyHandler] sampleHandler) sampleHandler).count sampleHandler
        = [errOnlyHandler].count sampleHandler + 2
    ∧ eventCap (.goString "q") = some .capJson
    ∧ hasCap sampleHandler .capJson = true
    ∧ (((handleMessage (.goString "q")
            (AddHandler (AddHandler [errOnlyHandler] sampleHandler) sampleHandler)).deliveries).count
          ⟨sampleHandler, .capJson, .goString "q"⟩)
        = ([errOnlyHandler].count sampleHandler) + 2 :=
  ⟨(addHandler_pure_append [errOnlyHandler] sampleHandler).1,
    (addHandler_pure_append [errOnlyHandler] sampleHandler).2.1,
    (addHandler_pure_append [errOnlyHandler] sampleHandler).2.2.1,
    by decide,
    (addHandler_pure_append [errOnlyHandler] sampleHandler).2.2.2.1 0 (by decide),
    (addHandler_pure_append [errOnlyHandler] sampleHandler).2.2.2.2.1,
    rfl, rfl,
    (addHandler_pure_append [errOnlyHandler] sampleHandler).2.2.2.2.2
      (.goString "q") .capJson rfl rfl⟩
